import Mathlib

/-!
Verification of the LOF-fund arbitrage profit calculator
(`jisilu_profit_calculator.py`).

Modelling conventions:
* Python `Decimal` values are embedded as exact rationals (`ℚ`).  All the
  arithmetic the program performs on them (addition, subtraction,
  multiplication, `max`, comparison) is exact in `Decimal` as well; the only
  rounded operation is the final profit-rate division, whose 28-significant-
  digit context rounding is far below every tolerance stated here.
* Python strings are embedded as `String` / `List Char`; `str.strip`,
  `str.replace('%','')` and the substring test `in` are modelled explicitly.
* The `Decimal` string constructor is modelled by `decCore`, covering its
  finite-number literal grammar (optional sign, integer/fraction digits,
  optional exponent, surrounding whitespace).  Special values (`NaN`,
  `Infinity`) and non-ASCII unicode digits, which the upstream fee field
  never contains, are outside the model.
* Mutation of the `FundItem` record in `calculate_arbitrage_profit` is
  embedded by explicit state passing: the method becomes a function
  returning the updated record together with the returned profit.
-/

/-- Account information (`Account` dataclass): commission rate, minimum
commission and transfer fee, as exact rationals. -/
structure Account where
  name : String
  commission_rate : ℚ
  min_commission : ℚ
  transfer_fee : ℚ := 0
deriving DecidableEq

/-- Fund quote record (`FundItem` dataclass).  The four trailing fields are
the computed-result fields, `None` (here `none`) until filled in by
`calculate_arbitrage_profit`. -/
structure FundItem where
  fund_id : String
  fund_name : String
  price : ℚ
  fund_nav : ℚ
  discount_rt : ℚ
  apply_fee : String
  redeem_fee : String
  apply_status : String
  redeem_status : String
  volume : ℚ
  amount : ℚ
  issuer_nm : String
  subscribe_fee_rate : Option ℚ := none
  estimated_sell_price : Option ℚ := none
  profit : Option ℚ := none
  profit_rate : Option ℚ := none
deriving DecidableEq

/-! ### The `Decimal` string constructor, modelled on `List Char` -/

/-- Characters that can occur in a finite `Decimal` literal.  Any other
character makes the constructor raise `InvalidOperation` (special values
aside, see the module comment). -/
def feeOkCh (c : Char) : Bool :=
  c.isDigit || c == '+' || c == '-' || c == '.' || c == 'e' || c == 'E'

/-- Numeric value of a digit string. -/
def digitsVal (cs : List Char) : ℕ :=
  cs.foldl (fun a c => 10 * a + (c.toNat - '0'.toNat)) 0

/-- Split an optional leading sign: returns (is-negative, rest). -/
def signSplit : List Char → Bool × List Char
  | '-' :: rest => (true, rest)
  | '+' :: rest => (false, rest)
  | cs => (false, cs)

/-- Split at the first exponent marker `e`/`E`, if any. -/
def splitAtExp : List Char → List Char × Option (List Char)
  | [] => ([], none)
  | c :: rest =>
    if c = 'e' ∨ c = 'E' then ([], some rest)
    else
      let (m, e) := splitAtExp rest
      (c :: m, e)

/-- Mantissa grammar: `digits`, `digits.digits?`, or `.digits`. -/
def decMant (cs : List Char) : Option ℚ :=
  let intPart := cs.takeWhile Char.isDigit
  let rest := cs.dropWhile Char.isDigit
  match rest with
  | [] => if intPart.isEmpty then none else some (digitsVal intPart)
  | '.' :: frac =>
    if frac.all Char.isDigit then
      if intPart.isEmpty && frac.isEmpty then none
      else some ((digitsVal intPart : ℚ) + (digitsVal frac : ℚ) / (10 : ℚ) ^ frac.length)
    else none
  | _ => none

/-- Exponent grammar: optional sign then nonempty digits. -/
def decExp (cs : List Char) : Option ℤ :=
  let (neg, ds) := signSplit cs
  if !ds.isEmpty && ds.all Char.isDigit then
    some (if neg then -(digitsVal ds : ℤ) else (digitsVal ds : ℤ))
  else none

/-- Ten to an integer power, as a rational. -/
def pow10z (e : ℤ) : ℚ :=
  if 0 ≤ e then (10 : ℚ) ^ e.toNat else 1 / (10 : ℚ) ^ (-e).toNat

/-- Finite-number body of the `Decimal` grammar (no surrounding whitespace). -/
def decNum (cs : List Char) : Option ℚ :=
  let (neg, body) := signSplit cs
  let (mant, ex) := splitAtExp body
  let v? : Option ℚ :=
    match ex with
    | none => decMant mant
    | some es =>
      match decMant mant, decExp es with
      | some m, some e => some (m * pow10z e)
      | _, _ => none
  v?.map (fun v => if neg then -v else v)

/-- The `Decimal` finite-literal grammar on an already-stripped string.  The
`feeOkCh` guard is redundant (any character outside `feeOkCh` already fails
`decNum`) and records that only finite-number literals are modelled. -/
def decCore (cs : List Char) : Option ℚ :=
  if cs.all feeOkCh then decNum cs else none

/-- Model of `str.strip()` and the whitespace tolerance of the `Decimal` constructor:
drop whitespace from both ends. -/
def stripWs (cs : List Char) : List Char :=
  (((cs.dropWhile Char.isWhitespace).reverse.dropWhile Char.isWhitespace)).reverse

/-- The `Decimal(...)` constructor on an arbitrary string: strips surrounding
whitespace, then parses the finite-number grammar; `none` models a raised
`InvalidOperation`. -/
def decParse (cs : List Char) : Option ℚ :=
  decCore (stripWs cs)

/-- Model of the membership test `'%' in fee_str`. -/
def hasPct (cs : List Char) : Bool := cs.contains '%'

/-- Model of `fee_str.replace('%', '')`. -/
def dropPct (cs : List Char) : List Char := cs.filter (fun c => c ≠ '%')

/-- Body of `FundItem.parse_apply_fee`, on the character list of the fee field:
strip, then if a percent marker is present remove it and divide the parsed
value by 100, otherwise parse directly; on parse failure return the default
0.0012.  The `try`/`except` of the source is the `none` branches. -/
def parse_fee_chars (cs : List Char) : ℚ :=
  if hasPct (stripWs cs) then
    match decParse (dropPct (stripWs cs)) with
    | some x => x / 100
    | none => (0.0012 : ℚ)
  else
    match decParse (stripWs cs) with
    | some x => x
    | none => (0.0012 : ℚ)

/-- Model of `FundItem.parse_apply_fee`. -/
def FundItem.parse_apply_fee (f : FundItem) : ℚ :=
  parse_fee_chars f.apply_fee.data

/-! ### `FundItem.calculate_arbitrage_profit`, step by step -/

/-- Step 1: `subscribe_amount = self.fund_nav * quantity`. -/
def subscribe_amount (f : FundItem) (quantity : ℤ) : ℚ :=
  f.fund_nav * (quantity : ℚ)

/-- Step 2: `subscribe_fee = subscribe_amount * self.parse_apply_fee()`. -/
def subscribe_fee (f : FundItem) (quantity : ℤ) : ℚ :=
  subscribe_amount f quantity * f.parse_apply_fee

/-- Step 3: `actual_cost = subscribe_amount + subscribe_fee`. -/
def actual_cost (f : FundItem) (quantity : ℤ) : ℚ :=
  subscribe_amount f quantity + subscribe_fee f quantity

/-- Step 4: `sell_amount = self.price * quantity`. -/
def sell_amount (f : FundItem) (quantity : ℤ) : ℚ :=
  f.price * (quantity : ℚ)

/-- Step 5: `sell_commission = max(sell_amount * account.commission_rate,
account.min_commission)`. -/
def sell_commission (f : FundItem) (account : Account) (quantity : ℤ) : ℚ :=
  max (sell_amount f quantity * account.commission_rate) account.min_commission

/-- Step 6: `profit = sell_amount - actual_cost - sell_commission -
account.transfer_fee`. -/
def fund_profit (f : FundItem) (account : Account) (quantity : ℤ) : ℚ :=
  sell_amount f quantity - actual_cost f quantity
    - sell_commission f account quantity - account.transfer_fee

/-- Step 7: `profit_rate = (profit / actual_cost) * 100 if actual_cost > 0
else 0`. -/
def fund_profit_rate (f : FundItem) (account : Account) (quantity : ℤ) : ℚ :=
  if 0 < actual_cost f quantity then
    fund_profit f account quantity / actual_cost f quantity * 100
  else 0

/-- Model of `FundItem.calculate_arbitrage_profit(account, quantity=10000)`: attaches
the computed fields to the record and returns the profit.  The mutation of
`self` is embedded as explicit state passing: result is the updated record
paired with the returned profit. -/
def calculate_arbitrage_profit (f : FundItem) (account : Account)
    (quantity : ℤ := 10000) : FundItem × ℚ :=
  ({ f with
      subscribe_fee_rate := some f.parse_apply_fee,
      estimated_sell_price := some f.price,
      profit := some (fund_profit f account quantity),
      profit_rate := some (fund_profit_rate f account quantity) },
    fund_profit f account quantity)

/-! ### `filter_arbitrage_opportunities` -/

/-- List version of Python's `startswith` on characters. -/
def startsWithL : List Char → List Char → Bool
  | [], _ => true
  | _ :: _, [] => false
  | p :: ps, c :: cs => p == c && startsWithL ps cs

/-- Python's substring test `needle in hay`. -/
def hasSub (needle : List Char) : List Char → Bool
  | [] => needle.isEmpty
  | c :: rest => startsWithL needle (c :: rest) || hasSub needle rest

/-- The subscription-status gate of the filter:
`'开放' in fund.apply_status or '限大额' in fund.apply_status`. -/
def statusEligible (s : String) : Bool :=
  hasSub "开放".data s.data || hasSub "限大额".data s.data

/-- Model of `filter_arbitrage_opportunities(funds, min_premium=Decimal('1.0'),
mode="premium")`: keep status-eligible funds whose divergence satisfies the
mode's (inclusive) threshold test, in input order. -/
def filter_arbitrage_opportunities (funds : List FundItem)
    (min_premium : ℚ := 1) (mode : String := "premium") : List FundItem :=
  match funds with
  | [] => []
  | fund :: rest =>
    let tail := filter_arbitrage_opportunities rest min_premium mode
    if statusEligible fund.apply_status then
      if mode = "premium" then
        if fund.discount_rt < 0 ∧ min_premium ≤ |fund.discount_rt| then
          fund :: tail
        else tail
      else if mode = "discount" then
        if 0 < fund.discount_rt ∧ min_premium ≤ fund.discount_rt then
          fund :: tail
        else tail
      else tail
    else tail

/-! ### Sorting (`sort_by_profit`, `sort_by_profit_rate`) -/

/-- Total order on the optional computed fields, treating the unset state
`none` as bottom.  On records whose computed fields are set (the only state
in which the source ever sorts; Python raises a `TypeError` otherwise) it is
exactly the `Decimal` order. -/
def optLe (a b : Option ℚ) : Bool :=
  match a, b with
  | none, _ => true
  | some _, none => false
  | some x, some y => x ≤ y

/-- Model of `sort_by_profit(funds, descending=True)`: Python's `sorted` is a stable
sort; `reverse=True` sorts descending while still keeping equal keys in
input order, which is exactly `mergeSort` with the flipped comparison. -/
def sort_by_profit (funds : List FundItem) (descending : Bool := true) :
    List FundItem :=
  funds.mergeSort (fun a b =>
    cond descending (optLe b.profit a.profit) (optLe a.profit b.profit))

/-- Model of `sort_by_profit_rate(funds, descending=True)`. -/
def sort_by_profit_rate (funds : List FundItem) (descending : Bool := true) :
    List FundItem :=
  funds.mergeSort (fun a b =>
    cond descending (optLe b.profit_rate a.profit_rate)
      (optLe a.profit_rate b.profit_rate))

/-! ### Concrete records used by the examples -/

/-- The quote of the spec's worked example: net asset value 1.0000, exchange
price 1.0500, subscription fee "0.12%". -/
def example_fund : FundItem :=
  { fund_id := "160105"
    fund_name := "测试基金"
    price := 1.05
    fund_nav := 1
    discount_rt := -5
    apply_fee := "0.12%"
    redeem_fee := "0.50%"
    apply_status := "开放申购"
    redeem_status := "开放赎回"
    volume := 0
    amount := 0
    issuer_nm := "" }

/-- The account of the spec's worked example: commission rate 0.0003,
minimum commission 5, transfer fee 0. -/
def example_account : Account :=
  { name := "账户B-普通佣金"
    commission_rate := 3 / 10000
    min_commission := 5
    transfer_fee := 0 }

/-! ### Auxiliary lemmas about the fee-string parser -/

/-- Characters of a finite `Decimal` literal are neither whitespace nor the
percent marker. -/
theorem feeOkCh_not_ws_pct {c : Char} (h : feeOkCh c = true) :
    c.isWhitespace = false ∧ c ≠ '%' := by
  constructor
  · by_contra hw
    rw [Bool.not_eq_false] at hw
    have hc : ((c = ' ' ∨ c = '\t') ∨ c = '\r') ∨ c = '\n' := by
      simpa [Char.isWhitespace] using hw
    rcases hc with ((rfl | rfl) | rfl) | rfl <;> exact absurd h (by decide)
  · rintro rfl
    exact absurd h (by decide)

/-- A successful `decCore` parse only sees `feeOkCh` characters. -/
theorem decCore_all_feeOk {cs : List Char} {x : ℚ} (h : decCore cs = some x) :
    ∀ c ∈ cs, feeOkCh c = true := by
  rw [decCore] at h
  split at h
  · next hall => exact fun c hc => List.all_eq_true.mp hall c hc
  · exact absurd h (by simp)

/-- A successfully parsed literal has no whitespace and no percent marker. -/
theorem decCore_mem_ok {cs : List Char} {x : ℚ} (h : decCore cs = some x) :
    ∀ c ∈ cs, c.isWhitespace = false ∧ c ≠ '%' :=
  fun c hc => feeOkCh_not_ws_pct (decCore_all_feeOk h c hc)

/-- The empty string is not a valid literal. -/
theorem decCore_ne_nil {cs : List Char} {x : ℚ} (h : decCore cs = some x) :
    cs ≠ [] := by
  rintro rfl
  rw [show decCore [] = none from rfl] at h
  exact absurd h (by simp)

/-- Dropping whitespace is the identity on a list without whitespace. -/
theorem dropWhile_ws_eq_self {l : List Char}
    (h : ∀ c ∈ l, c.isWhitespace = false) :
    l.dropWhile Char.isWhitespace = l := by
  cases l with
  | nil => rfl
  | cons c rest =>
    rw [List.dropWhile_cons_of_neg]
    simp [h c (List.mem_cons_self c rest)]

/-- Stripping is the identity on a list without whitespace. -/
theorem stripWs_eq_self {l : List Char}
    (h : ∀ c ∈ l, c.isWhitespace = false) :
    stripWs l = l := by
  rw [stripWs, dropWhile_ws_eq_self h,
    dropWhile_ws_eq_self (fun c hc => h c (List.mem_reverse.mp hc)),
    List.reverse_reverse]

/-- Stripping removes one blank on each side of a nonempty whitespace-free
list. -/
theorem stripWs_pad {l : List Char} (hne : l ≠ [])
    (h : ∀ c ∈ l, c.isWhitespace = false) :
    stripWs (' ' :: (l ++ [' '])) = l := by
  obtain ⟨c, rest, rfl⟩ := List.exists_cons_of_ne_nil hne
  have hc : c.isWhitespace = false := h c (List.mem_cons_self c rest)
  rw [stripWs, List.dropWhile_cons, if_pos (by decide), List.cons_append,
    List.dropWhile_cons, if_neg (by simp [hc]), ← List.cons_append,
    List.reverse_append, List.reverse_singleton, List.singleton_append,
    List.dropWhile_cons, if_pos (by decide),
    dropWhile_ws_eq_self (fun d hd => h d (List.mem_reverse.mp hd)),
    List.reverse_reverse]

/-- A string without percent marker reports none. -/
theorem hasPct_eq_false {l : List Char} (h : ∀ c ∈ l, c ≠ '%') :
    hasPct l = false := by
  have hm : ¬ ('%' ∈ l) := fun hm => h '%' hm rfl
  show List.elem '%' l = false
  rw [List.elem_eq_mem, decide_eq_false hm]

/-- A string ending in the percent marker reports it. -/
theorem hasPct_append_pct (l : List Char) : hasPct (l ++ ['%']) = true := by
  show List.elem '%' (l ++ ['%']) = true
  simp

/-- Percent removal is the identity on a percent-free string. -/
theorem dropPct_eq_self {l : List Char} (h : ∀ c ∈ l, c ≠ '%') :
    dropPct l = l := by
  rw [dropPct, List.filter_eq_self]
  intro c hc
  simpa using h c hc

/-- Percent removal deletes a trailing percent marker. -/
theorem dropPct_append_pct {l : List Char} (h : ∀ c ∈ l, c ≠ '%') :
    dropPct (l ++ ['%']) = l := by
  rw [dropPct, List.filter_append, ← dropPct, dropPct_eq_self h]
  simp

/-- On a string accepted by the literal grammar, `Decimal(...)` agrees with
the grammar (nothing to strip). -/
theorem decParse_of_clean {cs : List Char} {x : ℚ} (h : decCore cs = some x) :
    decParse cs = some x := by
  rw [decParse, stripWs_eq_self (fun c hc => (decCore_mem_ok h c hc).1), h]

/-- C5: the fee parser maps the percentage form `"X%"` to X/100, maps a bare
fractional string of value X/100 to X/100 (never dividing it by 100 again),
so the two forms of one rate parse to equal fractions, and surrounding
whitespace is trimmed before parsing.  `cs` is any string accepted by the
numeric literal grammar with value `x`, `ds` any string accepted with value
`x / 100`. -/
theorem fee_rate_forms_agree (cs ds : List Char) (x : ℚ)
    (hc : decCore cs = some x) (hd : decCore ds = some (x / 100)) :
    parse_fee_chars (cs ++ ['%']) = x / 100 ∧
    parse_fee_chars ds = x / 100 ∧
    parse_fee_chars (cs ++ ['%']) = parse_fee_chars ds ∧
    parse_fee_chars (' ' :: (ds ++ [' '])) = x / 100 ∧
    ∀ f : FundItem, f.apply_fee.data = cs ++ ['%'] → f.parse_apply_fee = x / 100 := by
  have hcs := decCore_mem_ok hc
  have hds := decCore_mem_ok hd
  have hws_cs : ∀ c ∈ cs, c.isWhitespace = false := fun c h => (hcs c h).1
  have hpc_cs : ∀ c ∈ cs, c ≠ '%' := fun c h => (hcs c h).2
  have hws_ds : ∀ c ∈ ds, c.isWhitespace = false := fun c h => (hds c h).1
  have hpc_ds : ∀ c ∈ ds, c ≠ '%' := fun c h => (hds c h).2
  have hws_cspct : ∀ c ∈ cs ++ ['%'], c.isWhitespace = false := by
    intro c hm
    rcases List.mem_append.mp hm with hm | hm
    · exact hws_cs c hm
    · rw [List.mem_singleton.mp hm]; decide
  have h1 : parse_fee_chars (cs ++ ['%']) = x / 100 := by
    rw [parse_fee_chars, stripWs_eq_self hws_cspct, hasPct_append_pct, if_pos rfl,
      dropPct_append_pct hpc_cs, decParse_of_clean hc]
  have h2 : parse_fee_chars ds = x / 100 := by
    rw [parse_fee_chars, stripWs_eq_self hws_ds, hasPct_eq_false hpc_ds,
      if_neg (by simp), decParse_of_clean hd]
  have h4 : parse_fee_chars (' ' :: (ds ++ [' '])) = x / 100 := by
    rw [parse_fee_chars, stripWs_pad (decCore_ne_nil hd) hws_ds,
      hasPct_eq_false hpc_ds, if_neg (by simp), decParse_of_clean hd]
  exact ⟨h1, h2, h1.trans h2.symm, h4,
    fun f hf => by rw [FundItem.parse_apply_fee, hf, h1]⟩

/-- Witness for C5 at the concrete forms "0.12%" and "0.0012". -/
theorem fee_rate_forms_agree_witness :
    decCore "0.12".data = some (3 / 25) ∧
    decCore "0.0012".data = some ((3 / 25) / 100) ∧
    parse_fee_chars ("0.12".data ++ ['%']) = (3 / 25) / 100 ∧
    parse_fee_chars "0.0012".data = (3 / 25) / 100 := by
  have hc : decCore "0.12".data = some (3 / 25) := by
    simp +decide [decCore, decNum, decMant, signSplit, splitAtExp, digitsVal]
    norm_num
  have hd : decCore "0.0012".data = some ((3 / 25) / 100) := by
    simp +decide [decCore, decNum, decMant, signSplit, splitAtExp, digitsVal]
    norm_num
  obtain ⟨h1, h2, -, -, -⟩ := fee_rate_forms_agree "0.12".data "0.0012".data (3 / 25) hc hd
  exact ⟨hc, hd, h1, h2⟩

/-- C6: on any input string whose numeric part fails to parse (in whichever
branch the percent test selects), the fee parser returns the fixed default
fraction 0.0012.  The model is a total function: the `except` handler of the
source is the `none` branch, so no exception reaches the caller. -/
theorem fee_parse_failure_default (cs : List Char)
    (h1 : hasPct (stripWs cs) = true → decParse (dropPct (stripWs cs)) = none)
    (h2 : hasPct (stripWs cs) = false → decParse (stripWs cs) = none) :
    parse_fee_chars cs = (0.0012 : ℚ) := by
  by_cases hp : hasPct (stripWs cs) = true
  · rw [parse_fee_chars, if_pos hp, h1 hp]
  · have hp' : hasPct (stripWs cs) = false := by simpa using hp
    rw [parse_fee_chars, if_neg (by simp [hp']), h2 hp']

/-- Witness for C6 at the malformed string "abc". -/
theorem fee_parse_failure_default_witness :
    hasPct (stripWs "abc".data) = false ∧
    decParse (stripWs "abc".data) = none ∧
    parse_fee_chars "abc".data = (0.0012 : ℚ) :=
  ⟨by decide, by decide,
    fee_parse_failure_default "abc".data (by decide) (by decide)⟩

/-! ### Evaluation of the spec's worked example -/

/-- The example's fee string "0.12%" parses to the fraction 0.0012. -/
theorem example_fee_value : example_fund.parse_apply_fee = 3 / 2500 := by
  simp +decide [example_fund, FundItem.parse_apply_fee, parse_fee_chars, decParse,
    decCore, decNum, decMant, decExp, signSplit, splitAtExp, stripWs, hasPct,
    dropPct, digitsVal, pow10z]
  norm_num

/-- Actual cost of the worked example. -/
theorem example_cost_value : actual_cost example_fund 10000 = 10012 := by
  rw [actual_cost, subscribe_fee, subscribe_amount, example_fee_value]
  rw [show example_fund.fund_nav = 1 from rfl]
  norm_num

/-- Net profit of the worked example. -/
theorem example_profit_value : fund_profit example_fund example_account 10000 = 483 := by
  rw [fund_profit, example_cost_value, sell_amount, sell_commission, sell_amount]
  rw [show example_fund.price = 1.05 from rfl,
    show example_account.commission_rate = 3 / 10000 from rfl,
    show example_account.min_commission = 5 from rfl,
    show example_account.transfer_fee = 0 from rfl]
  norm_num

/-- Profit rate of the worked example, as an exact rational. -/
theorem example_rate_value :
    fund_profit_rate example_fund example_account 10000 = 12075 / 2503 := by
  rw [fund_profit_rate, if_pos (by rw [example_cost_value]; norm_num),
    example_profit_value, example_cost_value]
  norm_num

/-- C1 counterexample: on the spec's worked example the evaluator's profit
rate is 483/10012 × 100 = 12075/2503 ≈ 4.8242 percent, which differs from
the claimed ≈4.8262 by more than 0.001, so it does not round to 4.8262 at
the stated four-decimal precision. -/
theorem example_profit_rate_not_4_8262 :
    (calculate_arbitrage_profit example_fund example_account 10000).1.profit_rate
      = some (fund_profit_rate example_fund example_account 10000) ∧
    fund_profit_rate example_fund example_account 10000 = 12075 / 2503 ∧
    (12075 / 2503 : ℚ) + 1 / 1000 < 48262 / 10000 := by
  refine ⟨rfl, example_rate_value, by norm_num⟩

/-- C1 amended: the worked example yields subscriptionAmount 10000.00,
subscriptionFee 12.00, actualCost 10012.00, saleAmount 10500.00,
saleCommission 5.00, netProfit 483.00 and profitRate ≈ 4.8242 percent
(within 0.0001), not ≈ 4.8262. -/
theorem example_evaluation_values :
    subscribe_amount example_fund 10000 = 10000 ∧
    subscribe_fee example_fund 10000 = 12 ∧
    actual_cost example_fund 10000 = 10012 ∧
    sell_amount example_fund 10000 = 10500 ∧
    sell_commission example_fund example_account 10000 = 5 ∧
    (calculate_arbitrage_profit example_fund example_account 10000).2 = 483 ∧
    48242 / 10000 - 1 / 10000 < fund_profit_rate example_fund example_account 10000 ∧
    fund_profit_rate example_fund example_account 10000 < 48242 / 10000 + 1 / 10000 := by
  have h1 : subscribe_amount example_fund 10000 = 10000 := by
    rw [subscribe_amount, show example_fund.fund_nav = 1 from rfl]; norm_num
  have h2 : subscribe_fee example_fund 10000 = 12 := by
    rw [subscribe_fee, h1, example_fee_value]; norm_num
  have h4 : sell_amount example_fund 10000 = 10500 := by
    rw [sell_amount, show example_fund.price = 1.05 from rfl]; norm_num
  have h5 : sell_commission example_fund example_account 10000 = 5 := by
    rw [sell_commission, h4, show example_account.commission_rate = 3 / 10000 from rfl,
      show example_account.min_commission = 5 from rfl]
    norm_num
  have h6 : (calculate_arbitrage_profit example_fund example_account 10000).2 = 483 :=
    example_profit_value
  refine ⟨h1, h2, example_cost_value, h4, h5, h6, ?_, ?_⟩ <;>
    rw [example_rate_value] <;> norm_num

/-- C2: in premium mode the filter returns exactly the status-eligible
quotes with negative divergence whose absolute value meets the (inclusive)
threshold, in input order; in discount mode exactly the status-eligible
quotes with positive divergence meeting the threshold.  A quote failing the
status gate is excluded regardless of divergence. -/
theorem filter_premium_discount_exact (funds : List FundItem) (min_premium : ℚ) :
    filter_arbitrage_opportunities funds min_premium "premium" =
      funds.filter (fun f => statusEligible f.apply_status &&
        decide (f.discount_rt < 0 ∧ min_premium ≤ |f.discount_rt|)) ∧
    filter_arbitrage_opportunities funds min_premium "discount" =
      funds.filter (fun f => statusEligible f.apply_status &&
        decide (0 < f.discount_rt ∧ min_premium ≤ f.discount_rt)) := by
  induction funds with
  | nil => exact ⟨rfl, rfl⟩
  | cons f rest ih =>
    constructor
    · by_cases hs : statusEligible f.apply_status = true
      · by_cases hp : f.discount_rt < 0 ∧ min_premium ≤ |f.discount_rt|
        · simp [filter_arbitrage_opportunities, List.filter_cons, hs, hp, ih.1]
        · simp [filter_arbitrage_opportunities, List.filter_cons, hs, hp, ih.1]
      · have hs' : statusEligible f.apply_status = false := by simpa using hs
        simp [filter_arbitrage_opportunities, List.filter_cons, hs', ih.1]
    · by_cases hs : statusEligible f.apply_status = true
      · by_cases hp : 0 < f.discount_rt ∧ min_premium ≤ f.discount_rt
        · simp [filter_arbitrage_opportunities, List.filter_cons, hs, hp, ih.2]
        · simp [filter_arbitrage_opportunities, List.filter_cons, hs, hp, ih.2]
      · have hs' : statusEligible f.apply_status = false := by simpa using hs
        simp [filter_arbitrage_opportunities, List.filter_cons, hs', ih.2]

/-- C10: for a mode string that is neither "premium" nor "discount" the
filter appends nothing and returns the empty list, raising no error. -/
theorem filter_unknown_mode_empty (funds : List FundItem) (min_premium : ℚ)
    (mode : String) (h1 : mode ≠ "premium") (h2 : mode ≠ "discount") :
    filter_arbitrage_opportunities funds min_premium mode = [] := by
  induction funds with
  | nil => rfl
  | cons f rest ih => simp [filter_arbitrage_opportunities, h1, h2, ih]

/-- Witness for C10 at the mode string "redeem". -/
theorem filter_unknown_mode_empty_witness :
    ("redeem" : String) ≠ "premium" ∧ ("redeem" : String) ≠ "discount" ∧
    filter_arbitrage_opportunities [example_fund] 0 "redeem" = [] :=
  ⟨by decide, by decide,
    filter_unknown_mode_empty [example_fund] 0 "redeem" (by decide) (by decide)⟩

/-- A status-eligible quote whose divergence magnitude (0.5 percent) lies
strictly between 0 and the code's default threshold of 1.0 percent. -/
def half_premium_fund : FundItem :=
  { example_fund with fund_id := "160106", discount_rt := -(1 / 2) }

/-- C9 counterexample: calling the filter with the threshold argument
omitted does not behave like threshold 0 — the code's default is
`Decimal('1.0')`, so a quote with divergence −0.5 is dropped by the default
call but kept by an explicit threshold 0. -/
theorem filter_default_threshold_ne_zero :
    filter_arbitrage_opportunities [half_premium_fund] = [] ∧
    filter_arbitrage_opportunities [half_premium_fund] 0 "premium"
      = [half_premium_fund] ∧
    filter_arbitrage_opportunities [half_premium_fund] ≠
      filter_arbitrage_opportunities [half_premium_fund] 0 "premium" := by
  have hs : statusEligible half_premium_fund.apply_status = true := by decide
  have hrt : half_premium_fund.discount_rt = -(1 / 2) := rfl
  have h1 : filter_arbitrage_opportunities [half_premium_fund] = [] := by
    have hc : ¬(half_premium_fund.discount_rt < 0 ∧
        (1 : ℚ) ≤ |half_premium_fund.discount_rt|) := by
      rw [hrt]
      rintro ⟨-, habs⟩
      rw [abs_neg, abs_of_pos (by norm_num)] at habs
      norm_num at habs
    simp [filter_arbitrage_opportunities, hs, hc]
  have h2 : filter_arbitrage_opportunities [half_premium_fund] 0 "premium"
      = [half_premium_fund] := by
    have hc : half_premium_fund.discount_rt < 0 ∧
        (0 : ℚ) ≤ |half_premium_fund.discount_rt| := by
      rw [hrt]
      exact ⟨by norm_num, abs_nonneg _⟩
    simp [filter_arbitrage_opportunities, hs, hc]
  exact ⟨h1, h2, by rw [h1, h2]; simp⟩

/-- C9 amended: the filter's minimum-divergence threshold defaults to 1.0
(percent) — the entry point passes its configured 0 explicitly — the mode
defaults to "premium", and the trade quantity defaults to 10000; omitting
the arguments behaves as those values. -/
theorem default_argument_values (funds : List FundItem) (f : FundItem) (a : Account) :
    filter_arbitrage_opportunities funds = filter_arbitrage_opportunities funds 1 "premium" ∧
    calculate_arbitrage_profit f a = calculate_arbitrage_profit f a 10000 :=
  ⟨rfl, rfl⟩

/-- C3: the sale commission used by the evaluator is
`max(saleAmount × commissionRate, minimumCommission)` — the floor is a
maximum, not an addition — and therefore never below the account's minimum
commission; the returned profit is built from exactly this commission. -/
theorem sale_commission_floor (f : FundItem) (a : Account) (q : ℤ)
    (h1 : 0 ≤ a.commission_rate) (h2 : 0 ≤ a.min_commission) :
    sell_commission f a q = max (sell_amount f q * a.commission_rate) a.min_commission ∧
    (calculate_arbitrage_profit f a q).2
      = sell_amount f q - actual_cost f q - sell_commission f a q - a.transfer_fee ∧
    a.min_commission ≤ sell_commission f a q :=
  ⟨rfl, rfl, le_max_right _ _⟩

/-- Witness for C3 at the worked example's account. -/
theorem sale_commission_floor_witness :
    (0 : ℚ) ≤ example_account.commission_rate ∧
    (0 : ℚ) ≤ example_account.min_commission ∧
    example_account.min_commission ≤ sell_commission example_fund example_account 10000 := by
  have h1 : (0 : ℚ) ≤ example_account.commission_rate := by
    rw [show example_account.commission_rate = 3 / 10000 from rfl]; norm_num
  have h2 : (0 : ℚ) ≤ example_account.min_commission := by
    rw [show example_account.min_commission = 5 from rfl]; norm_num
  exact ⟨h1, h2,
    (sale_commission_floor example_fund example_account 10000 h1 h2).2.2⟩

/-- C4: the profit-rate division is guarded — when the actual cost is 0 (in
particular whenever the net asset value is 0) the evaluator stores profit
rate 0 instead of dividing, and when the actual cost is positive it stores
`(netProfit / actualCost) × 100`.  The model is a total function, so no
error propagates in either case. -/
theorem profit_rate_zero_guard (f : FundItem) (a : Account) (q : ℤ) :
    (actual_cost f q = 0 → (calculate_arbitrage_profit f a q).1.profit_rate = some 0) ∧
    (f.fund_nav = 0 → (calculate_arbitrage_profit f a q).1.profit_rate = some 0) ∧
    (0 < actual_cost f q →
      (calculate_arbitrage_profit f a q).1.profit_rate
        = some (fund_profit f a q / actual_cost f q * 100)) := by
  have hzero : actual_cost f q = 0 →
      (calculate_arbitrage_profit f a q).1.profit_rate = some 0 := by
    intro h
    show some (fund_profit_rate f a q) = some 0
    rw [fund_profit_rate, if_neg (by rw [h]; exact lt_irrefl 0)]
  have hnav : f.fund_nav = 0 → actual_cost f q = 0 := by
    intro h
    rw [actual_cost, subscribe_fee, subscribe_amount, h]
    ring
  refine ⟨hzero, fun h => hzero (hnav h), fun h => ?_⟩
  show some (fund_profit_rate f a q) = some _
  rw [fund_profit_rate, if_pos h]

/-- Witness for C4: a zero-net-asset-value quote yields rate 0, and the
worked example's positive cost yields the quotient formula. -/
theorem profit_rate_zero_guard_witness :
    actual_cost { example_fund with fund_nav := 0 } 10000 = 0 ∧
    (calculate_arbitrage_profit { example_fund with fund_nav := 0 }
      example_account 10000).1.profit_rate = some 0 ∧
    (0 : ℚ) < actual_cost example_fund 10000 ∧
    (calculate_arbitrage_profit example_fund example_account 10000).1.profit_rate
      = some (fund_profit example_fund example_account 10000 /
          actual_cost example_fund 10000 * 100) := by
  have hz : actual_cost { example_fund with fund_nav := 0 } 10000 = 0 := by
    rw [actual_cost, subscribe_fee, subscribe_amount]
    rw [show ({ example_fund with fund_nav := 0 } : FundItem).fund_nav = 0 from rfl]
    ring
  have hpos : (0 : ℚ) < actual_cost example_fund 10000 := by
    rw [example_cost_value]; norm_num
  exact ⟨hz,
    (profit_rate_zero_guard { example_fund with fund_nav := 0 }
      example_account 10000).1 hz,
    hpos,
    (profit_rate_zero_guard example_fund example_account 10000).2.2 hpos⟩

/-- C8: evaluation never changes the input fields of the quote record — the
identifier, prices, divergence, fee and status fields and the rest of the
acquired data are returned unchanged — and its output depends only on those
input fields: evaluating after some other account's evaluation gives
exactly the result of evaluating the original record, so one account's run
cannot corrupt another's (the entry point additionally evaluates each
account on its own deep copy of the filtered list). -/
theorem evaluate_preserves_inputs (f : FundItem) (a₁ a₂ : Account) (q₁ q₂ : ℤ) :
    ((calculate_arbitrage_profit f a₁ q₁).1.fund_id = f.fund_id ∧
     (calculate_arbitrage_profit f a₁ q₁).1.fund_name = f.fund_name ∧
     (calculate_arbitrage_profit f a₁ q₁).1.price = f.price ∧
     (calculate_arbitrage_profit f a₁ q₁).1.fund_nav = f.fund_nav ∧
     (calculate_arbitrage_profit f a₁ q₁).1.discount_rt = f.discount_rt ∧
     (calculate_arbitrage_profit f a₁ q₁).1.apply_fee = f.apply_fee ∧
     (calculate_arbitrage_profit f a₁ q₁).1.redeem_fee = f.redeem_fee ∧
     (calculate_arbitrage_profit f a₁ q₁).1.apply_status = f.apply_status ∧
     (calculate_arbitrage_profit f a₁ q₁).1.redeem_status = f.redeem_status ∧
     (calculate_arbitrage_profit f a₁ q₁).1.volume = f.volume ∧
     (calculate_arbitrage_profit f a₁ q₁).1.amount = f.amount ∧
     (calculate_arbitrage_profit f a₁ q₁).1.issuer_nm = f.issuer_nm) ∧
    calculate_arbitrage_profit (calculate_arbitrage_profit f a₁ q₁).1 a₂ q₂
      = calculate_arbitrage_profit f a₂ q₂ :=
  ⟨⟨rfl, rfl, rfl, rfl, rfl, rfl, rfl, rfl, rfl, rfl, rfl, rfl⟩, rfl⟩

/-- Totality of the optional-value order. -/
theorem optLe_total (a b : Option ℚ) : optLe a b || optLe b a := by
  cases a <;> cases b <;> simp [optLe]
  exact le_total _ _

/-- Transitivity of the optional-value order. -/
theorem optLe_trans (a b c : Option ℚ) (hab : optLe a b) (hbc : optLe b c) :
    optLe a c := by
  cases a <;> cases b <;> cases c <;> simp_all [optLe]
  exact le_trans hab hbc

/-- Reflexivity of the optional-value order along an equality. -/
theorem optLe_of_eq {a b : Option ℚ} (h : a = b) : optLe a b := by
  subst h
  cases a <;> simp [optLe]

/-- C7: both rankings are permutations of their input, sorted descending by
their metric under the default argument (which is `descending = True`), and
stable: any equal-metric subsequence of the input — in particular any two
entries with equal metric — survives as a subsequence of the output, i.e.
keeps its relative order. -/
theorem rank_stable_sorted_perm (l : List FundItem) :
    (sort_by_profit l).Perm l ∧
    (sort_by_profit_rate l).Perm l ∧
    (sort_by_profit l).Pairwise (fun a b => optLe b.profit a.profit = true) ∧
    (sort_by_profit_rate l).Pairwise
      (fun a b => optLe b.profit_rate a.profit_rate = true) ∧
    sort_by_profit l = sort_by_profit l true ∧
    sort_by_profit_rate l = sort_by_profit_rate l true ∧
    (∀ c : List FundItem, c.Pairwise (fun a b => a.profit = b.profit) →
      c.Sublist l → c.Sublist (sort_by_profit l)) ∧
    (∀ c : List FundItem, c.Pairwise (fun a b => a.profit_rate = b.profit_rate) →
      c.Sublist l → c.Sublist (sort_by_profit_rate l)) := by
  refine ⟨List.mergeSort_perm l _, List.mergeSort_perm l _, ?_, ?_, rfl, rfl, ?_, ?_⟩
  · exact List.sorted_mergeSort
      (fun a b c hab hbc => optLe_trans c.profit b.profit a.profit hbc hab)
      (fun a b => optLe_total b.profit a.profit) l
  · exact List.sorted_mergeSort
      (fun a b c hab hbc => optLe_trans c.profit_rate b.profit_rate a.profit_rate hbc hab)
      (fun a b => optLe_total b.profit_rate a.profit_rate) l
  · intro c hc hs
    exact List.sublist_mergeSort
      (fun a b c hab hbc => optLe_trans c.profit b.profit a.profit hbc hab)
      (fun a b => optLe_total b.profit a.profit)
      (hc.imp fun h => optLe_of_eq h.symm) hs
  · intro c hc hs
    exact List.sublist_mergeSort
      (fun a b c hab hbc => optLe_trans c.profit_rate b.profit_rate a.profit_rate hbc hab)
      (fun a b => optLe_total b.profit_rate a.profit_rate)
      (hc.imp fun h => optLe_of_eq h.symm) hs

/-- Two computed records with equal profits, to witness stability. -/
def ranked_fund_a : FundItem :=
  { example_fund with fund_id := "A", profit := some 1, profit_rate := some 1 }

/-- A second computed record with the same profit but later input position. -/
def ranked_fund_b : FundItem :=
  { example_fund with fund_id := "B", profit := some 1, profit_rate := some 2 }

/-- Witness for C7: two equal-profit records keep their input order in the
ranking. -/
theorem rank_stable_sorted_perm_witness :
    ([ranked_fund_a, ranked_fund_b].Pairwise (fun a b => a.profit = b.profit)) ∧
    [ranked_fund_a, ranked_fund_b].Sublist
      (sort_by_profit [ranked_fund_a, ranked_fund_b]) := by
  have hp : ([ranked_fund_a, ranked_fund_b].Pairwise
      (fun a b => a.profit = b.profit)) := by
    simp [ranked_fund_a, ranked_fund_b]
  exact ⟨hp, (rank_stable_sorted_perm [ranked_fund_a, ranked_fund_b]).2.2.2.2.2.2.1
    [ranked_fund_a, ranked_fund_b] hp (List.Sublist.refl _)⟩
